import Mathlib

/-
Verification development for the SoftRF airborne traffic-awareness core.

The definitions below are a shallow embedding of the C++ sources:
  * TrafficHelper.cpp  (Adj_alt_diff, Alarm_Distance, Traffic_Update,
    Traffic_loop, ParseData)
  * protocol/data/NMEA.cpp  (NMEA_Export)
  * protocol/radio/Legacy.cpp  (legacy_encode / legacy_decode parity handling)

Machine floats are modelled as exact rationals; C `(int)` casts are modelled
as truncation toward zero.  Numeric configuration constants that live in
header files (TrafficHelper.h, Legacy.h) are kept as parameters of the
definitions, so every theorem quantifies over them unless a concrete value
is needed for a counterexample.
-/

namespace SoftRF

/-- Truncation toward zero of a rational number, the effect of a C `(int)`
cast applied to a float value. -/
def truncQ (q : ℚ) : ℤ :=
  if 0 ≤ q then ⌊q⌋ else -⌊-q⌋

/-- The fields of `ufo_t` (one tracked aircraft) that the claims touch.
Float fields are rationals, integer fields are `Nat`/`ℤ`. -/
structure Ufo where
  addr : Nat
  addr_type : Nat
  latitude : ℚ
  longitude : ℚ
  altitude : ℚ
  course : ℚ
  speed : ℚ
  vs : ℚ
  alt_diff : ℚ
  distance : ℚ
  adj_distance : ℚ
  adj_alt_diff : ℚ
  alarm_level : Nat
  alert_level : Nat
  alert : Nat
  stealth : Bool
  timestamp : Nat
  gnsstime_ms : Nat
  prevtime_ms : Nat
  prevcourse : ℚ
  rssi : ℤ
deriving DecidableEq

/-- The all-zero record `EmptyFO` used by TrafficHelper.cpp to blank a slot. -/
def EmptyFO : Ufo :=
  { addr := 0, addr_type := 0, latitude := 0, longitude := 0, altitude := 0
    course := 0, speed := 0, vs := 0, alt_diff := 0, distance := 0
    adj_distance := 0, adj_alt_diff := 0, alarm_level := 0, alert_level := 0
    alert := 0, stealth := false, timestamp := 0, gnsstime_ms := 0
    prevtime_ms := 0, prevcourse := 0, rssi := 0 }

instance : Inhabited Ufo := ⟨EmptyFO⟩

/-- Modelled from the spec: the `alarm_level` enumeration is declared in
TrafficHelper.h, which is not under src/; spec section 3 fixes the values
NONE(0), CLOSE(1), LOW(2), IMPORTANT(3), URGENT(4). -/
def ALARM_LEVEL_NONE : Nat := 0

/-- Alarm level CLOSE, see `ALARM_LEVEL_NONE`. -/
def ALARM_LEVEL_CLOSE : Nat := 1

/-- Alarm level LOW, see `ALARM_LEVEL_NONE`. -/
def ALARM_LEVEL_LOW : Nat := 2

/-- Alarm level IMPORTANT, see `ALARM_LEVEL_NONE`. -/
def ALARM_LEVEL_IMPORTANT : Nat := 3

/-- Alarm level URGENT, see `ALARM_LEVEL_NONE`. -/
def ALARM_LEVEL_URGENT : Nat := 4

/-- The numeric configuration constants of TrafficHelper.h (absent from
src/), kept abstract: alarm zone radii in meters, vertical separation,
slope and slack.  The zone radii and vertical constants are integer macros
(they are used in C int arithmetic); the slack is used only in float
context. -/
structure AlarmParams where
  zoneClose : ℤ
  zoneLow : ℤ
  zoneImportant : ℤ
  zoneUrgent : ℤ
  vSep : ℤ
  vSlope : ℤ
  vSlack : ℚ
deriving DecidableEq

/-- The dead-band applied at the end of `Adj_alt_diff`
(TrafficHelper.cpp, part_001 lines 398-404): differences below
VERTICAL_SLACK become 0, larger ones shrink by the slack, preserving sign. -/
def adjSlack (slack d : ℚ) : ℚ :=
  if d > 0 then
    if d < slack then 0 else d - slack
  else
    if -d < slack then 0 else d + slack

/-- Core of `Adj_alt_diff` after the relative vertical speed has been turned
into the expected 10-second altitude change `c` (part_001 lines 389-404):
the difference is moved toward zero only (clipped at zero), then the
dead-band is applied. -/
def adjCore (slack d c : ℚ) : ℚ :=
  if d > 0 ∧ c < 0 then
    if d + c < 0 then 0 else adjSlack slack (d + c)
  else if d < 0 ∧ c > 0 then
    if d + c > 0 then 0 else adjSlack slack (d + c)
  else adjSlack slack d

/-- `Adj_alt_diff` (TrafficHelper.cpp, part_001 lines 382-405): the relative
vertical speed `vsr = fop->vs - this_aircraft->vs` is replaced by 0 when its
magnitude exceeds 1000 fpm ("ignore implausible data"), converted to an
expected altitude change over 10 seconds (factor 0.05), and used to adjust
`fop->alt_diff` toward zero before the dead-band. -/
def Adj_alt_diff (P : AlarmParams) (this_aircraft fop : Ufo) : ℚ :=
  adjCore P.vSlack fop.alt_diff
    ((if |fop.vs - this_aircraft.vs| > 1000 then 0 else fop.vs - this_aircraft.vs) * (0.05 : ℚ))

/-- `Alarm_Distance` (TrafficHelper.cpp, part_001 lines 410-443): distance
based alarm level.  Returns NONE without a previous own-position sample;
short-circuits on far-away traffic; otherwise buckets the slope-adjusted
distance, all in C int arithmetic on the truncated values. -/
def Alarm_Distance (P : AlarmParams) (this_aircraft fop : Ufo) : Nat :=
  if this_aircraft.prevtime_ms = 0 then ALARM_LEVEL_NONE
  else
    let distance : ℤ := truncQ fop.distance
    if distance > 2 * P.zoneClose ∨ |fop.alt_diff| > 2 * (P.vSep : ℚ) then
      ALARM_LEVEL_NONE
    else
      let abs_alt_diff : ℤ := |truncQ (Adj_alt_diff P this_aircraft fop)|
      if abs_alt_diff < P.vSep then
        if P.vSlope * abs_alt_diff + distance < P.zoneUrgent then ALARM_LEVEL_URGENT
        else if P.vSlope * abs_alt_diff + distance < P.zoneImportant then ALARM_LEVEL_IMPORTANT
        else if P.vSlope * abs_alt_diff + distance < P.zoneLow then ALARM_LEVEL_LOW
        else if P.vSlope * abs_alt_diff + distance < P.zoneClose then ALARM_LEVEL_CLOSE
        else ALARM_LEVEL_NONE
      else ALARM_LEVEL_NONE

/-- The behaviour claim C5 describes, written from the claim text: two
short-circuit NONE guards, a NONE guard on the adjusted altitude
difference, and otherwise the bucket of
`eff_dist = distance + VERTICAL_SLOPE * |adj_alt_diff|`, over the same
integer-truncated quantities the code computes with. -/
def alarmDistanceClaim (P : AlarmParams) (this_aircraft fop : Ufo) : Nat :=
  let distance : ℤ := truncQ fop.distance
  let adj : ℤ := |truncQ (Adj_alt_diff P this_aircraft fop)|
  if distance > 2 * P.zoneClose ∨ |fop.alt_diff| > 2 * (P.vSep : ℚ) then ALARM_LEVEL_NONE
  else if adj ≥ P.vSep then ALARM_LEVEL_NONE
  else if distance + P.vSlope * adj < P.zoneUrgent then ALARM_LEVEL_URGENT
  else if distance + P.vSlope * adj < P.zoneImportant then ALARM_LEVEL_IMPORTANT
  else if distance + P.vSlope * adj < P.zoneLow then ALARM_LEVEL_LOW
  else if distance + P.vSlope * adj < P.zoneClose then ALARM_LEVEL_CLOSE
  else ALARM_LEVEL_NONE

/-- Concrete parameter values (alarm zones 400/700/1000/1500 m, vertical
separation 300 m, slope 5, slack 60 m) used for counterexamples only; the
general theorems quantify over the parameters. -/
def exampleParams : AlarmParams :=
  { zoneClose := 1500, zoneLow := 1000, zoneImportant := 700, zoneUrgent := 400
    vSep := 300, vSlope := 5, vSlack := 60 }

/-- The claim text of C7: the relative vertical speed gets clamped to
plus/minus 1000 fpm (instead of being zeroed), the rest unchanged. -/
def adjAltDiffClamped (P : AlarmParams) (this_aircraft fop : Ufo) : ℚ :=
  adjCore P.vSlack fop.alt_diff
    ((if fop.vs - this_aircraft.vs > 1000 then 1000
      else if fop.vs - this_aircraft.vs < -1000 then -1000
      else fop.vs - this_aircraft.vs) * (0.05 : ℚ))

/-- Helper for C6: the dead-band can only shrink the magnitude. -/
theorem adjSlack_abs_le (slack d : ℚ) (h : 0 ≤ slack) : |adjSlack slack d| ≤ |d| := by
  unfold adjSlack
  split_ifs with h1 h2 h3
  · simp
  · rw [abs_of_nonneg (by linarith), abs_of_pos h1]
    linarith
  · simp
  · push_neg at h1 h3
    rw [abs_of_nonpos (by linarith), abs_of_nonpos h1]
    linarith

/-- Helper for C6: the toward-zero adjustment followed by the dead-band can
only shrink the magnitude of the altitude difference. -/
theorem adjCore_abs_le (slack d c : ℚ) (h : 0 ≤ slack) : |adjCore slack d c| ≤ |d| := by
  unfold adjCore
  split_ifs with hA hB hC hD
  · simp
  · refine le_trans (adjSlack_abs_le slack (d + c) h) ?_
    push_neg at hB
    rw [abs_of_nonneg hB, abs_of_pos hA.1]
    linarith [hA.2]
  · simp
  · refine le_trans (adjSlack_abs_le slack (d + c) h) ?_
    push_neg at hD
    rw [abs_of_nonpos hD, abs_of_neg hC.1]
    linarith [hC.2]
  · exact adjSlack_abs_le slack d h

/-- C6: for all aircraft pairs, the magnitude of the adjusted altitude
difference never exceeds the raw one,
`|Adj_alt_diff(self, other)| <= |alt_diff|` (given a nonnegative
VERTICAL_SLACK; the source value is about 60 m): the vertical-speed
prediction only moves the difference toward zero and the dead-band only
shrinks its magnitude. -/
theorem c6_adj_alt_diff_bound (P : AlarmParams) (self fop : Ufo) (h : 0 ≤ P.vSlack) :
    |Adj_alt_diff P self fop| ≤ |fop.alt_diff| :=
  adjCore_abs_le P.vSlack fop.alt_diff _ h

/-- Witness for C6 at a concrete input. -/
theorem c6_adj_alt_diff_bound_witness :
    0 ≤ exampleParams.vSlack ∧
    |Adj_alt_diff exampleParams EmptyFO EmptyFO| ≤ |EmptyFO.alt_diff| :=
  ⟨by norm_num [exampleParams], c6_adj_alt_diff_bound exampleParams EmptyFO EmptyFO
    (by norm_num [exampleParams])⟩

/-- Other aircraft used in the C7 counterexample: descending 2000 fpm
relative to self, 200 m higher. -/
def cxFopC7 : Ufo := { EmptyFO with vs := -2000, alt_diff := 200 }

/-- C7 is false on the code: with `vsr = -2000` fpm the code zeroes the
relative vertical speed (`Adj_alt_diff` returns 200 - 60 = 140 m), while
the clamp-to-plus-minus-1000 behaviour the claim describes would predict a
-50 m change and return 90 m. -/
theorem c7_vsr_counterexample :
    Adj_alt_diff exampleParams EmptyFO cxFopC7 = 140 ∧
    adjAltDiffClamped exampleParams EmptyFO cxFopC7 = 90 := by
  norm_num [Adj_alt_diff, adjAltDiffClamped, adjCore, adjSlack, exampleParams, cxFopC7, EmptyFO]

/-- C7 amended: when `|vsr| > 1000` fpm the value used is 0 (the code
discards implausible data), so the vertical-speed prediction is skipped
entirely and only the dead-band is applied to `alt_diff`. -/
theorem c7_vsr_amended (P : AlarmParams) (self fop : Ufo)
    (h : |fop.vs - self.vs| > 1000) :
    Adj_alt_diff P self fop = adjSlack P.vSlack fop.alt_diff := by
  unfold Adj_alt_diff
  rw [if_pos h]
  unfold adjCore
  norm_num

/-- Witness for the amended C7 at a concrete input. -/
theorem c7_vsr_witness :
    |cxFopC7.vs - EmptyFO.vs| > 1000 ∧
    Adj_alt_diff exampleParams EmptyFO cxFopC7 = adjSlack exampleParams.vSlack cxFopC7.alt_diff :=
  ⟨by norm_num [cxFopC7, EmptyFO], c7_vsr_amended exampleParams EmptyFO cxFopC7
    (by norm_num [cxFopC7, EmptyFO])⟩

/-- C9: without a previous own-position sample (`prevtime_ms == 0`),
`Alarm_Distance` returns ALARM_LEVEL_NONE no matter how close the other
aircraft is. -/
theorem c9_no_prev_sample_none (P : AlarmParams) (self fop : Ufo)
    (h : self.prevtime_ms = 0) :
    Alarm_Distance P self fop = ALARM_LEVEL_NONE := by
  unfold Alarm_Distance
  rw [if_pos h]

/-- Witness for C9 at a concrete input (a co-located intruder). -/
theorem c9_no_prev_sample_none_witness :
    EmptyFO.prevtime_ms = 0 ∧
    Alarm_Distance exampleParams EmptyFO EmptyFO = ALARM_LEVEL_NONE :=
  ⟨rfl, c9_no_prev_sample_none exampleParams EmptyFO EmptyFO rfl⟩

/-- C5 is false as stated: with no previous own-position sample the code
returns NONE for a co-located intruder, where the claimed three-guard
bucket description yields URGENT. -/
theorem c5_alarm_distance_counterexample :
    Alarm_Distance exampleParams EmptyFO EmptyFO = ALARM_LEVEL_NONE ∧
    alarmDistanceClaim exampleParams EmptyFO EmptyFO = ALARM_LEVEL_URGENT := by
  constructor
  · exact c9_no_prev_sample_none exampleParams EmptyFO EmptyFO rfl
  · norm_num [alarmDistanceClaim, Adj_alt_diff, adjCore, adjSlack, truncQ, exampleParams, EmptyFO,
      ALARM_LEVEL_URGENT]

/-- C5 amended: provided the local aircraft has a previous position sample
(`prevtime_ms != 0`), `Alarm_Distance` behaves exactly as claim C5
describes (over the code's integer-truncated distance and adjusted
altitude difference). -/
theorem c5_alarm_distance_amended (P : AlarmParams) (self fop : Ufo)
    (h : self.prevtime_ms ≠ 0) :
    Alarm_Distance P self fop = alarmDistanceClaim P self fop := by
  simp only [Alarm_Distance, alarmDistanceClaim]
  split_ifs <;> omega

/-- Self aircraft with a previous position sample, for the C5 witness. -/
def wSelfC5 : Ufo := { EmptyFO with prevtime_ms := 1 }

/-- Witness for the amended C5 at a concrete input. -/
theorem c5_alarm_distance_witness :
    wSelfC5.prevtime_ms ≠ 0 ∧
    Alarm_Distance exampleParams wSelfC5 EmptyFO = alarmDistanceClaim exampleParams wSelfC5 EmptyFO :=
  ⟨by norm_num [wSelfC5, EmptyFO], c5_alarm_distance_amended exampleParams wSelfC5 EmptyFO
    (by norm_num [wSelfC5, EmptyFO])⟩

/-- The `Traffic_Update` alert ratchet (part_001 lines 583-584): when the
freshly computed alarm level is below the alert level, the alert level is
pulled down to one above the alarm level. -/
def alertRatchet (alert alarm : Nat) : Nat :=
  if alarm < alert then alarm + 1 else alert

/-- One 2-second `Traffic_loop` sweep as seen by a single tracked aircraft
that is the selected loudest target: `Traffic_Update` applies the ratchet,
then a sound fires iff the alarm level exceeds both the (ratcheted) alert
level and ALARM_LEVEL_CLOSE (part_001 lines 747-754 and 779-785), in which
case the alert level becomes alarm + 1.  Returns the new alert level and
whether a sound fired. -/
def sweepStep (alert alarm : Nat) : Nat × Bool :=
  if alarm > alertRatchet alert alarm ∧ alarm > ALARM_LEVEL_CLOSE then
    (alarm + 1, true)
  else
    (alertRatchet alert alarm, false)

/-- Alert level of the track after a sequence of alarm-level inputs. -/
def alertAfter (alert0 : Nat) (as : List Nat) : Nat :=
  as.foldl (fun al a => (sweepStep al a).1) alert0

/-- Whether the sweep that processes the i-th alarm value fires a sound. -/
def soundFiresAt (alert0 : Nat) (as : List Nat) (i : Nat) : Bool :=
  (sweepStep (alertAfter alert0 (as.take i)) (as.getD i 0)).2

/-- Ratchet-only alert evolution, used to analyse sound-free prefixes. -/
def alertNoFire (alert0 : Nat) (as : List Nat) : Nat :=
  as.foldl (fun al a => alertRatchet al a) alert0

/-- The ratchet takes the minimum of the alert level and alarm + 1. -/
theorem alertRatchet_eq_min (al a : Nat) : alertRatchet al a = min al (a + 1) := by
  unfold alertRatchet
  split <;> omega

/-- A sweep that does not fire leaves the ratcheted alert level. -/
theorem sweepStep_not_fire (al a : Nat) (h : (sweepStep al a).2 = false) :
    (sweepStep al a).1 = alertRatchet al a := by
  unfold sweepStep at h ⊢
  by_cases hc : a > alertRatchet al a ∧ a > ALARM_LEVEL_CLOSE
  · rw [if_pos hc] at h
    simp at h
  · rw [if_neg hc]

/-- A sweep fires only when the alarm exceeds the ratcheted alert level and
the CLOSE level. -/
theorem sweepStep_fire (al a : Nat) (h : (sweepStep al a).2 = true) :
    alertRatchet al a < a ∧ ALARM_LEVEL_CLOSE < a := by
  unfold sweepStep at h
  by_cases hc : a > alertRatchet al a ∧ a > ALARM_LEVEL_CLOSE
  · exact hc
  · rw [if_neg hc] at h
    simp at h

/-- Splitting one sweep off the end of a run. -/
theorem alertAfter_append (alert0 x : Nat) (l : List Nat) :
    alertAfter alert0 (l ++ [x]) = (sweepStep (alertAfter alert0 l) x).1 := by
  unfold alertAfter
  rw [List.foldl_append]
  rfl

/-- Splitting one ratchet off the end of a ratchet-only run. -/
theorem alertNoFire_append (alert0 x : Nat) (l : List Nat) :
    alertNoFire alert0 (l ++ [x]) = alertRatchet (alertNoFire alert0 l) x := by
  unfold alertNoFire
  rw [List.foldl_append]
  rfl

/-- On a prefix during which no sound fires, the alert level evolves by the
ratchet alone. -/
theorem alertAfter_eq_noFire (alert0 : Nat) (as : List Nat) :
    ∀ i, i ≤ as.length → (∀ j, j < i → soundFiresAt alert0 as j = false) →
      alertAfter alert0 (as.take i) = alertNoFire alert0 (as.take i) := by
  intro i
  induction i with
  | zero => intro _ _; rfl
  | succ n ih =>
    intro hn hquiet
    have hlen : n < as.length := hn
    have htake : as.take (n + 1) = as.take n ++ [as.getD n 0] := by
      rw [List.take_succ]
      simp [List.getElem?_eq_getElem hlen, List.getD_eq_getElem?_getD]
    have hprev := ih (le_of_lt hlen) (fun j hj => hquiet j (Nat.lt_succ_of_lt hj))
    have hq := hquiet n (Nat.lt_succ_self n)
    unfold soundFiresAt at hq
    rw [hprev] at hq
    rw [htake, alertAfter_append, alertNoFire_append, hprev]
    exact sweepStep_not_fire _ _ hq

/-- The ratchet-only alert level never rises above its start value. -/
theorem alertNoFire_le (as : List Nat) : ∀ alert0, alertNoFire alert0 as ≤ alert0 := by
  induction as with
  | nil => intro _; exact le_refl _
  | cons a l ih =>
    intro alert0
    have hstep : alertNoFire alert0 (a :: l) = alertNoFire (alertRatchet alert0 a) l := rfl
    rw [hstep]
    exact le_trans (ih (alertRatchet alert0 a)) (by rw [alertRatchet_eq_min]; omega)

/-- The ratchet-only alert level is either the start value or one above
some alarm value seen along the way. -/
theorem alertNoFire_cases (as : List Nat) : ∀ alert0,
    alertNoFire alert0 as = alert0 ∨
    ∃ j, j < as.length ∧ alertNoFire alert0 as = as.getD j 0 + 1 := by
  induction as with
  | nil => intro _; exact Or.inl rfl
  | cons a l ih =>
    intro alert0
    have hstep : alertNoFire alert0 (a :: l) = alertNoFire (alertRatchet alert0 a) l := rfl
    rcases ih (alertRatchet alert0 a) with h | ⟨j, hj, h⟩
    · rcases Nat.lt_or_ge a alert0 with hlt | hge
      · right
        refine ⟨0, Nat.succ_pos _, ?_⟩
        have hr : alertRatchet alert0 a = a + 1 := by
          simp only [alertRatchet]
          rw [if_pos hlt]
        rw [hstep, h, hr]
        simp
      · left
        have hr : alertRatchet alert0 a = alert0 := by
          simp only [alertRatchet]
          rw [if_neg (by omega)]
        rw [hstep, h, hr]
    · right
      refine ⟨j + 1, by simpa using hj, ?_⟩
      rw [hstep, h]
      simp

/-- C3 is false as stated: after a sound at level L = IMPORTANT(3) the
alert level is 4; the alarm sequence NONE(0) then LOW(2) fires a sound at
LOW, although the alarm level never reached L+1 = 4 and never performed a
drop-to-at-most-2-then-return-to-at-least-3 (the single index pair 0 < 1
is not such a return).  The ratchet dropped the alert level from 4 to 1 in
one step, so LOW(2) already re-fires. -/
theorem c3_hysteresis_counterexample :
    soundFiresAt 4 [0, 2] 1 = true ∧
    [0, 2].getD 0 0 < 3 + 1 ∧ [0, 2].getD 1 0 < 3 + 1 ∧
    ¬([0, 2].getD 0 0 + 1 ≤ 3 ∧ 3 ≤ [0, 2].getD 1 0) := by decide

/-- C3 amended: after a sound fired at alarm level L (alert level L+1), the
next sound, at step i with alarm value a = as[i], requires either that some
alarm value up to i reached L+1, or that some earlier alarm value d dropped
to at most L-1 and a is at least d+2 (the ratchet sets the alert level to
d+1 in a single step, so the return threshold is two above the lowest dip,
not L). -/
theorem c3_hysteresis_amended (L : Nat) (as : List Nat) (i : Nat)
    (hi : i < as.length)
    (hquiet : ∀ j, j < i → soundFiresAt (L + 1) as j = false)
    (hfire : soundFiresAt (L + 1) as i = true) :
    (∃ j, j ≤ i ∧ L + 1 ≤ as.getD j 0) ∨
    (∃ j, j < i ∧ as.getD j 0 + 1 ≤ L ∧ as.getD j 0 + 2 ≤ as.getD i 0) := by
  have hA := alertAfter_eq_noFire (L + 1) as i (le_of_lt hi) hquiet
  unfold soundFiresAt at hfire
  rw [hA] at hfire
  unfold sweepStep at hfire
  have hgt : alertNoFire (L + 1) (as.take i) < as.getD i 0 := by
    split at hfire
    · rename_i hc
      rw [alertRatchet_eq_min] at hc
      omega
    · simp at hfire
  have hle : alertNoFire (L + 1) (as.take i) ≤ L + 1 := alertNoFire_le _ _
  rcases alertNoFire_cases (as.take i) (L + 1) with hcase | ⟨j, hj, hcase⟩
  · left
    exact ⟨i, le_refl i, by omega⟩
  · have hjlen : j < i := by
      rw [List.length_take] at hj
      omega
    have hgetd : (as.take i).getD j 0 = as.getD j 0 := by
      simp [List.getD_eq_getElem?_getD, List.getElem?_take, hjlen]
    rw [hgetd] at hcase
    by_cases htop : alertNoFire (L + 1) (as.take i) = L + 1
    · left
      exact ⟨i, le_refl i, by omega⟩
    · right
      exact ⟨j, hjlen, by omega, by omega⟩

/-- Witness for the amended C3: after a sound at L = LOW(2), the alarm
drops to CLOSE(1) and returns to IMPORTANT(3), which fires. -/
theorem c3_hysteresis_witness :
    (∃ j, j ≤ 1 ∧ 2 + 1 ≤ [1, 3].getD j 0) ∨
    (∃ j, j < 1 ∧ [1, 3].getD j 0 + 1 ≤ 2 ∧ [1, 3].getD j 0 + 2 ≤ [1, 3].getD 1 0) :=
  c3_hysteresis_amended 2 [1, 3] 1 (by decide) (by decide) (by decide)

/-- The refresh that `ParseData` performs on the slot that already tracks
the incoming address (part_001 lines 637-648): the whole record is
overwritten by the incoming one, then `prevcourse` is set to the slot's
previous `course`, `prevtime_ms` to the slot's previous `gnsstime_ms`, and
`alert` / `alert_level` are restored from the slot. -/
def refreshSlot (fo old : Ufo) : Ufo :=
  { fo with
    prevcourse := old.course
    prevtime_ms := old.gnsstime_ms
    alert := old.alert
    alert_level := old.alert_level }

/-- The already-tracked branch of `ParseData` over the whole table: the
first slot whose address equals the incoming address is refreshed, all
other slots are untouched (the C loop returns at the first match). -/
def updateTracked (fo : Ufo) : List Ufo → List Ufo
  | [] => []
  | c :: rest =>
    if c.addr = fo.addr then refreshSlot fo c :: rest
    else c :: updateTracked fo rest

/-- Slot content for the C4 counterexample: course 10, prevcourse 5,
gnsstime 1000, prevtime 500. -/
def cxOldC4 : Ufo :=
  { EmptyFO with
    addr := 42, course := 10, prevcourse := 5
    gnsstime_ms := 1000, prevtime_ms := 500 }

/-- Incoming record for the C4 counterexample. -/
def cxFoC4 : Ufo :=
  { EmptyFO with
    addr := 42, course := 77, prevcourse := 99
    gnsstime_ms := 2000, prevtime_ms := 1 }

/-- C4 is false as stated: after the refresh, the slot's `prevcourse` is
the slot's former `course` (10), not the value `prevcourse` held before
the update (5); likewise `prevtime_ms` becomes the former `gnsstime_ms`
(1000), not the former `prevtime_ms` (500).  Only `alert` and
`alert_level` are retained verbatim. -/
theorem c4_refresh_counterexample :
    ((updateTracked cxFoC4 [cxOldC4]).getD 0 EmptyFO).prevcourse = 10 ∧
    cxOldC4.prevcourse = 5 ∧
    ((updateTracked cxFoC4 [cxOldC4]).getD 0 EmptyFO).prevtime_ms = 1000 ∧
    cxOldC4.prevtime_ms = 500 := by
  refine ⟨?_, rfl, rfl, rfl⟩
  rfl

/-- C4 amended: when a decoded frame matches the address of slot i (and no
earlier slot matches), slot i is overwritten with the incoming record,
except that `alert` and `alert_level` retain the slot's previous values
while `prevcourse` and `prevtime_ms` are loaded with the slot's previous
`course` and `gnsstime_ms`; every other field comes from the incoming
record and no other slot changes. -/
theorem c4_refresh_amended (fo : Ufo) (table : List Ufo) (i : Nat)
    (hi : i < table.length)
    (hmatch : (table.getD i EmptyFO).addr = fo.addr)
    (hfirst : ∀ j, j < i → (table.getD j EmptyFO).addr ≠ fo.addr) :
    (updateTracked fo table).length = table.length ∧
    ((updateTracked fo table).getD i EmptyFO).addr = fo.addr ∧
    ((updateTracked fo table).getD i EmptyFO).latitude = fo.latitude ∧
    ((updateTracked fo table).getD i EmptyFO).longitude = fo.longitude ∧
    ((updateTracked fo table).getD i EmptyFO).altitude = fo.altitude ∧
    ((updateTracked fo table).getD i EmptyFO).course = fo.course ∧
    ((updateTracked fo table).getD i EmptyFO).speed = fo.speed ∧
    ((updateTracked fo table).getD i EmptyFO).vs = fo.vs ∧
    ((updateTracked fo table).getD i EmptyFO).alt_diff = fo.alt_diff ∧
    ((updateTracked fo table).getD i EmptyFO).distance = fo.distance ∧
    ((updateTracked fo table).getD i EmptyFO).alarm_level = fo.alarm_level ∧
    ((updateTracked fo table).getD i EmptyFO).stealth = fo.stealth ∧
    ((updateTracked fo table).getD i EmptyFO).timestamp = fo.timestamp ∧
    ((updateTracked fo table).getD i EmptyFO).gnsstime_ms = fo.gnsstime_ms ∧
    ((updateTracked fo table).getD i EmptyFO).rssi = fo.rssi ∧
    ((updateTracked fo table).getD i EmptyFO).prevcourse = (table.getD i EmptyFO).course ∧
    ((updateTracked fo table).getD i EmptyFO).prevtime_ms = (table.getD i EmptyFO).gnsstime_ms ∧
    ((updateTracked fo table).getD i EmptyFO).alert = (table.getD i EmptyFO).alert ∧
    ((updateTracked fo table).getD i EmptyFO).alert_level = (table.getD i EmptyFO).alert_level ∧
    ∀ j, j ≠ i → (updateTracked fo table).getD j EmptyFO = table.getD j EmptyFO := by
  have key : updateTracked fo table = table.set i (refreshSlot fo (table.getD i EmptyFO)) := by
    induction table generalizing i with
    | nil => simp at hi
    | cons c rest ih =>
      cases i with
      | zero =>
        have h0 : c.addr = fo.addr := by simpa using hmatch
        unfold updateTracked
        rw [if_pos h0]
        simp
      | succ n =>
        have hc : c.addr ≠ fo.addr := by simpa using hfirst 0 (Nat.succ_pos n)
        unfold updateTracked
        rw [if_neg hc]
        have hrec := ih n (by simpa using hi) (by simpa using hmatch)
          (fun j hj => by simpa using hfirst (j + 1) (by omega))
        rw [hrec]
        simp
  have hset : (updateTracked fo table).getD i EmptyFO = refreshSlot fo (table.getD i EmptyFO) := by
    rw [key]
    simp [List.getD_eq_getElem?_getD, List.getElem?_set_self, hi]
  refine ⟨by rw [key]; simp, ?_, ?_, ?_, ?_, ?_, ?_, ?_, ?_, ?_, ?_, ?_, ?_, ?_, ?_, ?_, ?_,
    ?_, ?_, ?_⟩
  all_goals try (rw [hset]; rfl)
  intro j hj
  rw [key]
  simp [List.getD_eq_getElem?_getD, List.getElem?_set_ne (Ne.symm hj)]

/-- Witness for the amended C4 at a concrete two-slot table: the second
slot matches the incoming address, the first does not. -/
theorem c4_refresh_witness :
    (updateTracked cxFoC4 [EmptyFO, cxOldC4]).length = [EmptyFO, cxOldC4].length ∧
    ((updateTracked cxFoC4 [EmptyFO, cxOldC4]).getD 1 EmptyFO).addr = cxFoC4.addr ∧
    ((updateTracked cxFoC4 [EmptyFO, cxOldC4]).getD 1 EmptyFO).latitude = cxFoC4.latitude ∧
    ((updateTracked cxFoC4 [EmptyFO, cxOldC4]).getD 1 EmptyFO).longitude = cxFoC4.longitude ∧
    ((updateTracked cxFoC4 [EmptyFO, cxOldC4]).getD 1 EmptyFO).altitude = cxFoC4.altitude ∧
    ((updateTracked cxFoC4 [EmptyFO, cxOldC4]).getD 1 EmptyFO).course = cxFoC4.course ∧
    ((updateTracked cxFoC4 [EmptyFO, cxOldC4]).getD 1 EmptyFO).speed = cxFoC4.speed ∧
    ((updateTracked cxFoC4 [EmptyFO, cxOldC4]).getD 1 EmptyFO).vs = cxFoC4.vs ∧
    ((updateTracked cxFoC4 [EmptyFO, cxOldC4]).getD 1 EmptyFO).alt_diff = cxFoC4.alt_diff ∧
    ((updateTracked cxFoC4 [EmptyFO, cxOldC4]).getD 1 EmptyFO).distance = cxFoC4.distance ∧
    ((updateTracked cxFoC4 [EmptyFO, cxOldC4]).getD 1 EmptyFO).alarm_level = cxFoC4.alarm_level ∧
    ((updateTracked cxFoC4 [EmptyFO, cxOldC4]).getD 1 EmptyFO).stealth = cxFoC4.stealth ∧
    ((updateTracked cxFoC4 [EmptyFO, cxOldC4]).getD 1 EmptyFO).timestamp = cxFoC4.timestamp ∧
    ((updateTracked cxFoC4 [EmptyFO, cxOldC4]).getD 1 EmptyFO).gnsstime_ms = cxFoC4.gnsstime_ms ∧
    ((updateTracked cxFoC4 [EmptyFO, cxOldC4]).getD 1 EmptyFO).rssi = cxFoC4.rssi ∧
    ((updateTracked cxFoC4 [EmptyFO, cxOldC4]).getD 1 EmptyFO).prevcourse
      = ([EmptyFO, cxOldC4].getD 1 EmptyFO).course ∧
    ((updateTracked cxFoC4 [EmptyFO, cxOldC4]).getD 1 EmptyFO).prevtime_ms
      = ([EmptyFO, cxOldC4].getD 1 EmptyFO).gnsstime_ms ∧
    ((updateTracked cxFoC4 [EmptyFO, cxOldC4]).getD 1 EmptyFO).alert
      = ([EmptyFO, cxOldC4].getD 1 EmptyFO).alert ∧
    ((updateTracked cxFoC4 [EmptyFO, cxOldC4]).getD 1 EmptyFO).alert_level
      = ([EmptyFO, cxOldC4].getD 1 EmptyFO).alert_level ∧
    ∀ j, j ≠ 1 → (updateTracked cxFoC4 [EmptyFO, cxOldC4]).getD j EmptyFO
      = [EmptyFO, cxOldC4].getD j EmptyFO :=
  c4_refresh_amended cxFoC4 [EmptyFO, cxOldC4] 1 (by decide)
    (by rfl)
    (by
      intro j hj
      interval_cases j
      decide)

/-- Bit i of a byte value, as 0 or 1. -/
def bitOf (b i : Nat) : Nat := b / 2 ^ i % 2

/-- Number of set bits among the k lowest bits of a value. -/
def onesBelow : Nat → Nat → Nat
  | 0, _ => 0
  | k + 1, b => b % 2 + onesBelow k (b / 2)

/-- Number of set bits of one byte. -/
def byteOnes (b : Nat) : Nat := onesBelow 8 b

/-- Modelled from the spec: the `parity()` helper is declared in Legacy.h,
which is absent from src/; spec section 4.1 defines it as "each byte's own
bit-parity", i.e. the number of set bits of the byte, mod 2. -/
def parity (b : Nat) : Nat := byteOnes b % 2

/-- The parity accumulation loop shared by legacy_encode (Legacy.cpp lines
355-357) and legacy_decode (lines 145-147): `pkt_parity += parity(byte)`
over all packet bytes (the uint8_t accumulator cannot overflow on 24
summands each at most 1). -/
def packetParitySum (pkt : List Nat) : Nat := (pkt.map parity).sum

/-- The parity gate of legacy_decode (Legacy.cpp lines 148-154): after
XXTEA decryption the parity sum is recomputed and the decoder returns
false exactly when it is odd. -/
def legacyDecodeParityOk (pkt : List Nat) : Bool := packetParitySum pkt % 2 == 0

/-- Clearing bit i of a byte (the `pkt->parity = 0` store of Legacy.cpp
line 328; the byte/bit position of the parity field inside
`legacy_packet_t` is kept abstract since Legacy.h is absent from src/). -/
def clearBit (b i : Nat) : Nat := b - bitOf b i * 2 ^ i

/-- Writing value v (0 or 1) into bit i of a byte. -/
def setBitVal (b i v : Nat) : Nat := clearBit b i + v * 2 ^ i

/-- Writing value v into bit i of packet byte pb. -/
def storeParityBit (pkt : List Nat) (pb i v : Nat) : List Nat :=
  pkt.set pb (setBitVal (pkt.getD pb 0) i v)

/-- The tail of legacy_encode (Legacy.cpp lines 328 and 355-359): clear the
parity bit, accumulate the byte parities, then store the accumulated sum
mod 2 into the parity bit. -/
def legacyEncodeParity (pkt : List Nat) (pb i : Nat) : List Nat :=
  storeParityBit (storeParityBit pkt pb i 0) pb i
    (packetParitySum (storeParityBit pkt pb i 0) % 2)

/-- Bit i of a value decomposed as a multiple of 2^i plus a remainder. -/
theorem bitOf_mul_add (q r i : Nat) (hr : r < 2 ^ i) : bitOf (q * 2 ^ i + r) i = q % 2 := by
  have hepos : 0 < 2 ^ i := Nat.pos_pow_of_pos i (by norm_num)
  unfold bitOf
  rw [Nat.mul_comm q, Nat.mul_add_div hepos, Nat.div_eq_of_lt hr, Nat.add_zero]

/-- Clearing a bit makes that bit 0. -/
theorem clearBit_bitOf (b i : Nat) : bitOf (clearBit b i) i = 0 := by
  have hepos : 0 < 2 ^ i := Nat.pos_pow_of_pos i (by norm_num)
  obtain ⟨q, r, hrlt, rfl⟩ : ∃ q r, r < 2 ^ i ∧ b = q * 2 ^ i + r :=
    ⟨b / 2 ^ i, b % 2 ^ i, Nat.mod_lt b hepos,
      by rw [Nat.mul_comm]; exact (Nat.div_add_mod b (2 ^ i)).symm⟩
  unfold clearBit
  rw [bitOf_mul_add q r i hrlt]
  have hle : q % 2 * 2 ^ i ≤ q * 2 ^ i := Nat.mul_le_mul_right _ (Nat.mod_le _ _)
  have h2 : q * 2 ^ i + r - q % 2 * 2 ^ i = (q - q % 2) * 2 ^ i + r := by
    rw [Nat.sub_mul]
    omega
  rw [h2, bitOf_mul_add _ r i hrlt]
  omega

/-- Adding v at a clear bit position below k adds v set bits. -/
theorem onesBelow_add_pow (k : Nat) : ∀ b v i, i < k → v ≤ 1 → bitOf b i = 0 →
    onesBelow k (b + v * 2 ^ i) = onesBelow k b + v := by
  induction k with
  | zero => intro b v i hi _ _; omega
  | succ k ih =>
    intro b v i hi hv h0
    unfold bitOf at h0
    cases i with
    | zero =>
      have hb2 : b % 2 = 0 := by simpa using h0
      have h1 : (b + v * 2 ^ 0) % 2 = v := by simp only [pow_zero, Nat.mul_one]; omega
      have h2 : (b + v * 2 ^ 0) / 2 = b / 2 := by simp only [pow_zero, Nat.mul_one]; omega
      unfold onesBelow
      rw [h1, h2]
      omega
    | succ j =>
      have hpow : v * 2 ^ (j + 1) = 2 * (v * 2 ^ j) := by ring
      have hdiv : (b + v * 2 ^ (j + 1)) / 2 = b / 2 + v * 2 ^ j := by rw [hpow]; omega
      have hmod : (b + v * 2 ^ (j + 1)) % 2 = b % 2 := by rw [hpow]; omega
      have h0q : bitOf (b / 2) j = 0 := by
        unfold bitOf
        rw [Nat.div_div_eq_div_mul]
        have h2j : (2:Nat) * 2 ^ j = 2 ^ (j + 1) := by ring
        rw [h2j]
        exact h0
      unfold onesBelow
      rw [hmod, hdiv, ih (b / 2) v j (by omega) hv h0q]
      omega

/-- Replacing one byte changes the parity sum by that byte's parity. -/
theorem packetParitySum_set (pkt : List Nat) : ∀ n x, n < pkt.length →
    packetParitySum (pkt.set n x) + parity (pkt.getD n 0)
      = packetParitySum pkt + parity x := by
  induction pkt with
  | nil => intro n x hn; simp at hn
  | cons c rest ih =>
    intro n x hn
    cases n with
    | zero =>
      simp only [List.set, List.getD_cons_zero, packetParitySum, List.map_cons, List.sum_cons]
      omega
    | succ m =>
      have hm : m < rest.length := by simpa using hn
      have hrec := ih m x hm
      simp only [List.set, List.getD_cons_succ, packetParitySum, List.map_cons,
        List.sum_cons] at *
      omega

/-- C2: the 24-byte packet produced by legacy_encode has XOR byte-parity 0
after the parity bit is set and before XXTEA encryption (for any position
of the single parity bit inside the frame), so legacy_decode's parity gate
accepts it; and the gate returns false exactly when the recomputed parity
after XXTEA decryption is odd. -/
theorem c2_parity_of_encoded_packet (pkt q : List Nat) (pb i : Nat)
    (h24 : pkt.length = 24) (hpb : pb < 24) (hi : i < 8) :
    packetParitySum (legacyEncodeParity pkt pb i) % 2 = 0 ∧
    legacyDecodeParityOk (legacyEncodeParity pkt pb i) = true ∧
    (legacyDecodeParityOk q = false ↔ packetParitySum q % 2 = 1) := by
  have hlen : pb < pkt.length := by omega
  have hmain : packetParitySum (legacyEncodeParity pkt pb i) % 2 = 0 := by
    unfold legacyEncodeParity storeParityBit setBitVal
    set b := pkt.getD pb 0 with hb
    set cb := clearBit b i with hcb
    have hz : cb + 0 * 2 ^ i = cb := by omega
    rw [hz]
    set pkt0 := pkt.set pb cb with hpkt0
    have hlen0 : pb < pkt0.length := by
      rw [hpkt0]
      simpa using hlen
    have hget0 : pkt0.getD pb 0 = cb := by
      rw [hpkt0]
      simp [List.getD_eq_getElem?_getD, List.getElem?_set_self, hlen]
    set p := packetParitySum pkt0 % 2 with hp
    have hple : p ≤ 1 := by omega
    have hcbbit : bitOf cb i = 0 := clearBit_bitOf b i
    have hclear2 : clearBit cb i = cb := by
      unfold clearBit
      rw [hcbbit]
      omega
    rw [hget0, hclear2]
    have hsum := packetParitySum_set pkt0 pb (cb + p * 2 ^ i) hlen0
    rw [hget0] at hsum
    have hones : byteOnes (cb + p * 2 ^ i) = byteOnes cb + p :=
      onesBelow_add_pow 8 cb p i hi hple hcbbit
    have hpar : parity (cb + p * 2 ^ i) = (byteOnes cb + p) % 2 := by
      unfold parity
      rw [hones]
    have hparcb : parity cb = byteOnes cb % 2 := rfl
    omega
  refine ⟨hmain, ?_, ?_⟩
  · unfold legacyDecodeParityOk
    rw [hmain]
    rfl
  · rcases Nat.mod_two_eq_zero_or_one (packetParitySum q) with hq | hq <;>
      simp [legacyDecodeParityOk, hq]

/-- Witness for C2 at a concrete input: the all-zero 24-byte frame with
the parity bit at byte 19, bit 7, and a one-byte odd packet for the gate
direction. -/
theorem c2_parity_witness :
    packetParitySum (legacyEncodeParity (List.replicate 24 0) 19 7) % 2 = 0 ∧
    legacyDecodeParityOk (legacyEncodeParity (List.replicate 24 0) 19 7) = true ∧
    (legacyDecodeParityOk [1] = false ↔ packetParitySum [1] % 2 = 1) :=
  c2_parity_of_encoded_packet (List.replicate 24 0) [1] 19 7 (by decide) (by decide) (by decide)

/-- The reciprocal stealth flag of NMEA_Export (NMEA.cpp lines 642 and
718): either the reported target or the local aircraft is stealthy. -/
def nmeaStealth (selfStealth : Bool) (e : Ufo) : Bool :=
  e.stealth || selfStealth

/-- The per-sentence address-type clamp of NMEA_Export (NMEA.cpp lines
715-716): address types above ADDR_TYPE_ANONYMOUS are reported as
anonymous; the numeric value of ADDR_TYPE_ANONYMOUS lives in a header
absent from src/ and is kept abstract as `anon`. -/
def pflaaAddrType (anon : Nat) (e : Ufo) : Nat :=
  if e.addr_type > anon then anon else e.addr_type

/-- The identifier and address type carried by the PFLAA sentence emitted
at list position i (NMEA.cpp lines 715-726): under stealth the substitute
identifier 0xFFFFF0 + i with anonymous address type, otherwise the real
address with the clamped address type. -/
def pflaaIdFields (anon : Nat) (selfStealth : Bool) (e : Ufo) (i : Nat) : Nat × Nat :=
  if nmeaStealth selfStealth e then (0xFFFFF0 + i, anon)
  else (e.addr, pflaaAddrType anon e)

/-- C10: under stealth (either side), the PFLAA identifier is the
substitute 0xFFFFF0 + position with the anonymous address type, and it
does not depend on the target's real address: a target differing only in
its address yields the identical identifier field. -/
theorem c10_stealth_id_substitution (anon : Nat) (selfStealth : Bool) (e : Ufo)
    (i a2 : Nat) (h : nmeaStealth selfStealth e = true) :
    pflaaIdFields anon selfStealth e i = (0xFFFFF0 + i, anon) ∧
    pflaaIdFields anon selfStealth { e with addr := a2 } i
      = pflaaIdFields anon selfStealth e i := by
  have h2 : nmeaStealth selfStealth { e with addr := a2 } = true := h
  unfold pflaaIdFields
  rw [h, h2]
  exact ⟨rfl, rfl⟩

/-- Stealthy target used in the C10 witness. -/
def cxStealthC10 : Ufo := { EmptyFO with addr := 111, stealth := true }

/-- Witness for C10 at a concrete input. -/
theorem c10_stealth_id_witness :
    nmeaStealth false cxStealthC10 = true ∧
    (pflaaIdFields 2 false cxStealthC10 3 = (0xFFFFF0 + 3, 2) ∧
     pflaaIdFields 2 false { cxStealthC10 with addr := 222 } 3
       = pflaaIdFields 2 false cxStealthC10 3) :=
  ⟨rfl, c10_stealth_id_substitution 2 false cxStealthC10 3 222 rfl⟩

/-- The configuration and environment of one NMEA_Export invocation.  The
numeric constants live in headers absent from src/ and are kept abstract;
`maxNmea` is MAX_NMEA_OBJECTS, `maxTrack` is MAX_TRACKING_OBJECTS (the
value of the `next` sentinel). -/
structure NmeaEnv where
  now : ℤ
  exportExp : ℤ
  zoneNone : ℚ
  vvr : ℤ
  stealthDist : ℚ
  stealthVert : ℤ
  followId : Nat
  selfStealth : Bool
  maxTrack : Nat
  maxNmea : Nat
deriving DecidableEq

/-- The stealth mask gate of the scan loop (NMEA.cpp lines 642-660): a
stealthy pair with alarm at most CLOSE is not shown when beyond
STEALTH_DISTANCE horizontally or STEALTH_VERTICAL vertically (the latter
compared on the int-truncated altitude difference). -/
def nmeaShow (E : NmeaEnv) (e : Ufo) : Bool :=
  if nmeaStealth E.selfStealth e = true ∧ e.alarm_level ≤ ALARM_LEVEL_CLOSE ∧
      (e.distance > E.stealthDist ∨ |truncQ e.alt_diff| > E.stealthVert) then
    false
  else true

/-- The candidate filter of the scan loop (NMEA.cpp lines 630 and
665-668): a fresh nonempty slot that is alarming, or near enough, or the
followed target, and allowed by the stealth mask. -/
def nmeaIncluded (E : NmeaEnv) (e : Ufo) : Bool :=
  if e.addr ≠ 0 ∧ E.now - (e.timestamp : ℤ) ≤ E.exportExp ∧
      (e.alarm_level > ALARM_LEVEL_NONE ∨
        (e.distance < E.zoneNone ∧ truncQ |e.adj_alt_diff| < E.vvr) ∨
        e.addr = E.followId) ∧
      nmeaShow E e = true then
    true
  else false

/-- The insert-before test of the sorted-list construction (NMEA.cpp lines
680-682): the new index k goes before list entry x only when x has
alarm level at most k's, is not the followed target, and has adjusted
distance at least k's. -/
def insertCond (E : NmeaEnv) (C : List Ufo) (k x : Nat) : Bool :=
  if (C.getD x EmptyFO).alarm_level ≤ (C.getD k EmptyFO).alarm_level ∧
      (C.getD x EmptyFO).addr ≠ E.followId ∧
      (C.getD x EmptyFO).adj_distance ≥ (C.getD k EmptyFO).adj_distance then
    true
  else false

/-- Insertion of container index k into the linked export list (NMEA.cpp
lines 672-694), with the list of container indices standing for the
head/next pointer chain. -/
def nmeaInsert (E : NmeaEnv) (C : List Ufo) (k : Nat) : List Nat → List Nat
  | [] => [k]
  | x :: xs => if insertCond E C k x = true then k :: x :: xs else x :: nmeaInsert E C k xs

/-- Indices of the candidate traffic, in container scan order
(NMEA.cpp line 626). -/
def candidateIdx (E : NmeaEnv) (C : List Ufo) : List Nat :=
  (List.range C.length).filter (fun j => nmeaIncluded E (C.getD j EmptyFO))

/-- The sorted export list built by the scan loop. -/
def nmeaOrder (E : NmeaEnv) (C : List Ufo) : List Nat :=
  (candidateIdx E C).foldl (fun L k => nmeaInsert E C k L) []

/-- The high-priority record tracked during the scan (NMEA.cpp lines
610-618). -/
structure HPState where
  alarm : Nat
  adjDist : ℚ
  addr : Nat
  stealth : Bool
deriving DecidableEq

/-- Initial high-priority record (NMEA.cpp lines 611-618). -/
def hpInit : HPState :=
  { alarm := ALARM_LEVEL_NONE, adjDist := 999999999, addr := 0, stealth := false }

/-- The high-priority update applied per included target (NMEA.cpp lines
696-706): strictly higher alarm, or equal alarm with adjusted distance at
most the current one, takes over; under stealth the recorded address is
the substitute 0xFFFFF0 + container index. -/
def hpStep (E : NmeaEnv) (C : List Ufo) (s : HPState) (k : Nat) : HPState :=
  if (C.getD k EmptyFO).alarm_level > s.alarm ∨
      ((C.getD k EmptyFO).alarm_level = s.alarm ∧ (C.getD k EmptyFO).adj_distance ≤ s.adjDist) then
    { alarm := (C.getD k EmptyFO).alarm_level
      adjDist := (C.getD k EmptyFO).adj_distance
      addr := if nmeaStealth E.selfStealth (C.getD k EmptyFO) then 0xFFFFF0 + k
              else (C.getD k EmptyFO).addr
      stealth := nmeaStealth E.selfStealth (C.getD k EmptyFO) }
  else s

/-- The high-priority record after the scan. -/
def nmeaHP (E : NmeaEnv) (C : List Ufo) : HPState :=
  (candidateIdx E C).foldl (hpStep E C) hpInit

/-- The head fallback (NMEA.cpp lines 801-820): if traffic was listed but
no high-priority object was recorded, the head of the sorted list is
promoted. -/
def nmeaHPFinal (E : NmeaEnv) (C : List Ufo) : HPState :=
  if (nmeaOrder E C).length > 0 ∧ (nmeaHP E C).addr = 0 then
    if (C.getD ((nmeaOrder E C).headD 0) EmptyFO).addr ≠ 0 then
      { alarm := (C.getD ((nmeaOrder E C).headD 0) EmptyFO).alarm_level
        adjDist := (nmeaHP E C).adjDist
        addr := if nmeaStealth E.selfStealth (C.getD ((nmeaOrder E C).headD 0) EmptyFO)
                then 0xFFFFF0 else (C.getD ((nmeaOrder E C).headD 0) EmptyFO).addr
        stealth := nmeaStealth E.selfStealth (C.getD ((nmeaOrder E C).headD 0) EmptyFO) }
    else nmeaHP E C
  else nmeaHP E C

/-- The PFLAA emission walk (NMEA.cpp lines 711-791): at most
MAX_NMEA_OBJECTS iterations over the sorted list; when the list is full
the high-priority address is skipped; the walk stops early when the next
container index reaches MAX_NMEA_OBJECTS (the belt-and-suspenders break,
with MAX_TRACKING_OBJECTS as the end-of-list sentinel). -/
def nmeaEmitGo (E : NmeaEnv) (C : List Ufo) (hpAddr total : Nat) : List Nat → Nat → List Nat
  | [], _ => []
  | x :: rest, i =>
    if i < total ∧ i < E.maxNmea then
      (if total < E.maxNmea ∨ (C.getD x EmptyFO).addr ≠ hpAddr then [x] else []) ++
      (if rest.headD E.maxTrack ≥ E.maxNmea then [] else nmeaEmitGo E C hpAddr total rest (i + 1))
    else []

/-- The container indices whose PFLAA sentences are emitted, in emission
order. -/
def nmeaEmitted (E : NmeaEnv) (C : List Ufo) : List Nat :=
  nmeaEmitGo E C (nmeaHPFinal E C).addr (nmeaOrder E C).length (nmeaOrder E C) 0

/-- Scan-order relation that the emitted sequence does satisfy: whenever
index x is emitted before index y and x was scanned earlier (x < y), the
insertion loop refused to put y before x (so x is the followed target, or
has strictly higher alarm level, or strictly smaller adjusted distance). -/
def scanOrderOK (E : NmeaEnv) (C : List Ufo) (x y : Nat) : Prop :=
  x < y → insertCond E C y x = false

/-- The ordering claim C8 makes, written from the claim text: x may come
before y only if the followed target comes first, then descending alarm
level, with ascending adjusted distance inside one level. -/
def claimRankBefore (E : NmeaEnv) (C : List Ufo) (x y : Nat) : Bool :=
  if (C.getD y EmptyFO).addr = E.followId ∧ (C.getD x EmptyFO).addr ≠ E.followId then false
  else if (C.getD x EmptyFO).addr = E.followId ∧ (C.getD y EmptyFO).addr ≠ E.followId then true
  else if (C.getD x EmptyFO).alarm_level > (C.getD y EmptyFO).alarm_level then true
  else if (C.getD x EmptyFO).alarm_level = (C.getD y EmptyFO).alarm_level ∧
      (C.getD x EmptyFO).adj_distance ≤ (C.getD y EmptyFO).adj_distance then true
  else false

/-- Environment for the C8 counterexample: no follow target, no stealth,
an 8-slot table and the 12-sentence NMEA limit. -/
def cxC8Env : NmeaEnv :=
  { now := 0, exportExp := 30, zoneNone := 10000, vvr := 500, stealthDist := 8000
    stealthVert := 300, followId := 0, selfStealth := false, maxTrack := 8, maxNmea := 12 }

/-- First scanned target of the C8 counterexample: alarm CLOSE, 5 m away. -/
def cxC8e0 : Ufo :=
  { EmptyFO with addr := 100, alarm_level := 1, adj_distance := 5, distance := 5 }

/-- Second scanned target of the C8 counterexample: alarm LOW, 10 m away. -/
def cxC8e1 : Ufo :=
  { EmptyFO with addr := 200, alarm_level := 2, adj_distance := 10, distance := 10 }

/-- Container of the C8 counterexample. -/
def cxC8C : List Ufo := [cxC8e0, cxC8e1]

/-- C8 is false as stated: with the two targets above, the emitted PFLAA
order is [slot 0 (alarm 1), slot 1 (alarm 2)], which is not sorted by
descending alarm level (the insertion test also demands non-increasing
adjusted distance before putting the higher alarm first), and the PFLAU
carries address 200 while the first PFLAA carries address 100. -/
theorem c8_nmea_order_counterexample :
    nmeaEmitted cxC8Env cxC8C = [0, 1] ∧
    claimRankBefore cxC8Env cxC8C 0 1 = false ∧
    (nmeaHPFinal cxC8Env cxC8C).addr = 200 ∧
    (cxC8C.getD ((nmeaEmitted cxC8Env cxC8C).headD 0) EmptyFO).addr = 100 := by
  have hget0 : cxC8C.getD 0 EmptyFO = cxC8e0 := rfl
  have hget1 : cxC8C.getD 1 EmptyFO = cxC8e1 := rfl
  have h0 : nmeaIncluded cxC8Env cxC8e0 = true := by
    norm_num [nmeaIncluded, nmeaShow, nmeaStealth, truncQ, cxC8Env, cxC8e0, EmptyFO,
      ALARM_LEVEL_NONE, ALARM_LEVEL_CLOSE]
  have h1 : nmeaIncluded cxC8Env cxC8e1 = true := by
    norm_num [nmeaIncluded, nmeaShow, nmeaStealth, truncQ, cxC8Env, cxC8e1,
      EmptyFO, ALARM_LEVEL_NONE, ALARM_LEVEL_CLOSE]
  have hcand : candidateIdx cxC8Env cxC8C = [0, 1] := by
    unfold candidateIdx
    have hr : List.range cxC8C.length = [0, 1] := rfl
    rw [hr]
    simp only [List.filter_cons, List.filter_nil, hget0, hget1, h0, h1]
    simp
  have hic : insertCond cxC8Env cxC8C 1 0 = false := by
    norm_num [insertCond, cxC8Env, cxC8C, cxC8e0, cxC8e1, EmptyFO]
  have hord : nmeaOrder cxC8Env cxC8C = [0, 1] := by
    unfold nmeaOrder
    rw [hcand]
    simp [List.foldl, nmeaInsert, hic]
  have hhp : nmeaHP cxC8Env cxC8C = { alarm := 2, adjDist := 10, addr := 200, stealth := false } := by
    unfold nmeaHP
    rw [hcand]
    norm_num [List.foldl, hpStep, hpInit, nmeaStealth, cxC8Env, cxC8C, cxC8e0, cxC8e1, EmptyFO,
      ALARM_LEVEL_NONE]
  have hfin : nmeaHPFinal cxC8Env cxC8C = { alarm := 2, adjDist := 10, addr := 200, stealth := false } := by
    unfold nmeaHPFinal
    rw [hhp]
    rw [if_neg (by norm_num)]
  have hemit : nmeaEmitted cxC8Env cxC8C = [0, 1] := by
    unfold nmeaEmitted
    rw [hord, hfin]
    norm_num [nmeaEmitGo, cxC8Env, cxC8C, cxC8e0, cxC8e1, EmptyFO]
  refine ⟨hemit, ?_, by rw [hfin], ?_⟩
  · norm_num [claimRankBefore, cxC8Env, cxC8C, cxC8e0, cxC8e1, EmptyFO]
  · rw [hemit]
    rfl

/-- Membership after an insertion into the export list. -/
theorem mem_nmeaInsert (E : NmeaEnv) (C : List Ufo) (k y : Nat) :
    ∀ L, y ∈ nmeaInsert E C k L ↔ y = k ∨ y ∈ L := by
  intro L
  induction L with
  | nil => simp [nmeaInsert]
  | cons x xs ih =>
    unfold nmeaInsert
    by_cases hc : insertCond E C k x = true
    · rw [if_pos hc]
      simp only [List.mem_cons]
    · rw [if_neg hc]
      simp only [List.mem_cons, ih]
      tauto

/-- Inserting a later-scanned index preserves the scan-order relation. -/
theorem nmeaInsert_pairwise (E : NmeaEnv) (C : List Ufo) (k : Nat) :
    ∀ L, (∀ x ∈ L, x < k) → L.Pairwise (scanOrderOK E C) →
      (nmeaInsert E C k L).Pairwise (scanOrderOK E C) := by
  intro L
  induction L with
  | nil =>
    intro _ _
    simp [nmeaInsert]
  | cons x xs ih =>
    intro hlt hp
    rw [List.pairwise_cons] at hp
    unfold nmeaInsert
    by_cases hc : insertCond E C k x = true
    · rw [if_pos hc]
      refine List.Pairwise.cons ?_ (List.Pairwise.cons hp.1 hp.2)
      intro y hy hky
      exact absurd hky (by have := hlt y hy; omega)
    · rw [if_neg hc]
      refine List.Pairwise.cons ?_ (ih (fun z hz => hlt z (List.mem_cons_of_mem x hz)) hp.2)
      intro y hy
      rcases (mem_nmeaInsert E C k y xs).mp hy with rfl | hyxs
      · intro _
        revert hc
        cases insertCond E C y x <;> simp
      · exact hp.1 y hyxs

/-- Folding later-scanned insertions over a scan-order-correct accumulator
keeps the scan-order relation. -/
theorem nmeaOrder_fold_pairwise (E : NmeaEnv) (C : List Ufo) :
    ∀ (l acc : List Nat), l.Pairwise (· < ·) → acc.Pairwise (scanOrderOK E C) →
      (∀ x ∈ acc, ∀ k ∈ l, x < k) →
      (l.foldl (fun L k => nmeaInsert E C k L) acc).Pairwise (scanOrderOK E C) := by
  intro l
  induction l with
  | nil =>
    intro acc _ hacc _
    simpa using hacc
  | cons k rest ih =>
    intro acc hl hacc hx
    rw [List.foldl_cons]
    rw [List.pairwise_cons] at hl
    refine ih _ hl.2
      (nmeaInsert_pairwise E C k acc (fun x hxa => hx x hxa k (List.mem_cons_self k rest)) hacc)
      ?_
    intro x hxin k2 hk2
    rcases (mem_nmeaInsert E C k x acc).mp hxin with rfl | hxacc
    · exact hl.1 k2 hk2
    · exact hx x hxacc k2 (List.mem_cons_of_mem k hk2)

/-- The emission walk only drops elements of the sorted list. -/
theorem nmeaEmitGo_sublist (E : NmeaEnv) (C : List Ufo) (hpAddr total : Nat) :
    ∀ (l : List Nat) (i : Nat), (nmeaEmitGo E C hpAddr total l i).Sublist l := by
  intro l
  induction l with
  | nil =>
    intro i
    simp [nmeaEmitGo]
  | cons x rest ih =>
    intro i
    unfold nmeaEmitGo
    by_cases h1 : i < total ∧ i < E.maxNmea
    · rw [if_pos h1]
      by_cases h2 : total < E.maxNmea ∨ (C.getD x EmptyFO).addr ≠ hpAddr
      · rw [if_pos h2]
        by_cases h3 : rest.headD E.maxTrack ≥ E.maxNmea
        · rw [if_pos h3]
          simp
        · rw [if_neg h3]
          simp only [List.cons_append, List.nil_append]
          exact List.Sublist.cons₂ x (ih (i + 1))
      · rw [if_neg h2]
        by_cases h3 : rest.headD E.maxTrack ≥ E.maxNmea
        · rw [if_pos h3]
          simp
        · rw [if_neg h3]
          simp only [List.nil_append]
          exact List.Sublist.cons x (ih (i + 1))
    · rw [if_neg h1]
      simp

/-- One high-priority update never lowers the recorded alarm level below
either the previous record or the target's level. -/
theorem hpStep_alarm_le (E : NmeaEnv) (C : List Ufo) (s : HPState) (k : Nat) :
    s.alarm ≤ (hpStep E C s k).alarm ∧
    (C.getD k EmptyFO).alarm_level ≤ (hpStep E C s k).alarm := by
  unfold hpStep
  split
  · rename_i h
    constructor
    · show s.alarm ≤ (C.getD k EmptyFO).alarm_level
      rcases h with h | ⟨h, -⟩ <;> omega
    · show (C.getD k EmptyFO).alarm_level ≤ (C.getD k EmptyFO).alarm_level
      exact le_refl _
  · rename_i h
    have h1 : ¬((C.getD k EmptyFO).alarm_level > s.alarm) := fun hgt => h (Or.inl hgt)
    exact ⟨le_refl _, by omega⟩

/-- Folding high-priority updates never lowers the recorded alarm level. -/
theorem hpFold_alarm_mono (E : NmeaEnv) (C : List Ufo) :
    ∀ (l : List Nat) (s : HPState), s.alarm ≤ (l.foldl (hpStep E C) s).alarm := by
  intro l
  induction l with
  | nil => intro s; exact le_refl _
  | cons a rest ih =>
    intro s
    rw [List.foldl_cons]
    exact le_trans (hpStep_alarm_le E C s a).1 (ih _)

/-- The recorded alarm level dominates every scanned target's level. -/
theorem hpFold_alarm_ge (E : NmeaEnv) (C : List Ufo) :
    ∀ (l : List Nat) (s : HPState) (k : Nat), k ∈ l →
      (C.getD k EmptyFO).alarm_level ≤ (l.foldl (hpStep E C) s).alarm := by
  intro l
  induction l with
  | nil =>
    intro s k hk
    simp at hk
  | cons a rest ih =>
    intro s k hk
    rw [List.foldl_cons]
    rcases List.mem_cons.mp hk with rfl | hk2
    · exact le_trans (hpStep_alarm_le E C s k).2 (hpFold_alarm_mono E C rest _)
    · exact ih _ k hk2

/-- A fired high-priority update for a nonempty slot records a nonzero
address. -/
theorem hpStep_fired_addr_ne (E : NmeaEnv) (C : List Ufo) (s : HPState) (k : Nat)
    (hk : (C.getD k EmptyFO).addr ≠ 0)
    (hc : (C.getD k EmptyFO).alarm_level > s.alarm ∨
      ((C.getD k EmptyFO).alarm_level = s.alarm ∧ (C.getD k EmptyFO).adj_distance ≤ s.adjDist)) :
    (hpStep E C s k).addr ≠ 0 := by
  unfold hpStep
  rw [if_pos hc]
  show (if nmeaStealth E.selfStealth (C.getD k EmptyFO) then 0xFFFFF0 + k
    else (C.getD k EmptyFO).addr) ≠ 0
  split
  · omega
  · exact hk

/-- A high-priority update for a nonempty slot records a nonzero address. -/
theorem hpStep_addr_ne (E : NmeaEnv) (C : List Ufo) (s : HPState) (k : Nat)
    (hk : (C.getD k EmptyFO).addr ≠ 0) (hs : s.addr ≠ 0) :
    (hpStep E C s k).addr ≠ 0 := by
  by_cases hc : (C.getD k EmptyFO).alarm_level > s.alarm ∨
      ((C.getD k EmptyFO).alarm_level = s.alarm ∧ (C.getD k EmptyFO).adj_distance ≤ s.adjDist)
  · exact hpStep_fired_addr_ne E C s k hk hc
  · have hskip : hpStep E C s k = s := by
      unfold hpStep
      rw [if_neg hc]
    rw [hskip]
    exact hs

/-- Folding over nonempty slots keeps the recorded address nonzero. -/
theorem hpFold_addr_ne (E : NmeaEnv) (C : List Ufo) :
    ∀ (l : List Nat) (s : HPState), (∀ k ∈ l, (C.getD k EmptyFO).addr ≠ 0) → s.addr ≠ 0 →
      (l.foldl (hpStep E C) s).addr ≠ 0 := by
  intro l
  induction l with
  | nil => intro s _ hs; exact hs
  | cons a rest ih =>
    intro s hne hs
    rw [List.foldl_cons]
    by_cases hc : (C.getD a EmptyFO).alarm_level > s.alarm ∨
        ((C.getD a EmptyFO).alarm_level = s.alarm ∧ (C.getD a EmptyFO).adj_distance ≤ s.adjDist)
    · exact ih _ (fun k hk => hne k (List.mem_cons_of_mem a hk))
        (hpStep_addr_ne E C s a (hne a (List.mem_cons_self a rest)) hs)
    · have hskip : hpStep E C s a = s := by
        unfold hpStep
        rw [if_neg hc]
      rw [hskip]
      exact ih s (fun k hk => hne k (List.mem_cons_of_mem a hk)) hs

/-- If the fold over nonempty slots ends with address 0, no update ever
fired and the state is unchanged. -/
theorem hpFold_addr_stuck (E : NmeaEnv) (C : List Ufo) :
    ∀ (l : List Nat) (s : HPState), (∀ k ∈ l, (C.getD k EmptyFO).addr ≠ 0) →
      (l.foldl (hpStep E C) s).addr = 0 → l.foldl (hpStep E C) s = s := by
  intro l
  induction l with
  | nil => intro s _ _; rfl
  | cons a rest ih =>
    intro s hne h0
    rw [List.foldl_cons] at h0 ⊢
    by_cases hc : (C.getD a EmptyFO).alarm_level > s.alarm ∨
        ((C.getD a EmptyFO).alarm_level = s.alarm ∧ (C.getD a EmptyFO).adj_distance ≤ s.adjDist)
    · exfalso
      exact hpFold_addr_ne E C rest _ (fun k hk => hne k (List.mem_cons_of_mem a hk))
        (hpStep_fired_addr_ne E C s a (hne a (List.mem_cons_self a rest)) hc) h0
    · have hskip : hpStep E C s a = s := by
        unfold hpStep
        rw [if_neg hc]
      rw [hskip] at h0 ⊢
      exact ih s (fun k hk => hne k (List.mem_cons_of_mem a hk)) h0

/-- Every listed candidate is a nonempty slot. -/
theorem candidateIdx_addr_ne (E : NmeaEnv) (C : List Ufo) (k : Nat)
    (hk : k ∈ candidateIdx E C) : (C.getD k EmptyFO).addr ≠ 0 := by
  unfold candidateIdx at hk
  have hmem := List.of_mem_filter hk
  simp only at hmem
  unfold nmeaIncluded at hmem
  split at hmem
  · rename_i hp
    exact hp.1
  · simp at hmem

/-- C8 amended: in every NMEA_Export invocation, (a) the emitted PFLAA
sequence satisfies the scan-order guarantee the insertion loop actually
provides: an earlier-scanned entry precedes a later-scanned one only if it
is the followed target, has strictly higher alarm level, or strictly
smaller adjusted distance (full descending-alarm sorting does not hold);
and (b) the PFLAU target's alarm level dominates the alarm level of every
listed entry (its address need not match the first PFLAA's). -/
theorem c8_nmea_order_amended (E : NmeaEnv) (C : List Ufo) :
    (nmeaEmitted E C).Pairwise (scanOrderOK E C) ∧
    ∀ k ∈ candidateIdx E C, (C.getD k EmptyFO).alarm_level ≤ (nmeaHPFinal E C).alarm := by
  constructor
  · have hord : (nmeaOrder E C).Pairwise (scanOrderOK E C) := by
      unfold nmeaOrder
      exact nmeaOrder_fold_pairwise E C _ []
        ((List.pairwise_lt_range _).filter _) (by simp) (by simp)
    exact hord.sublist (nmeaEmitGo_sublist E C _ _ _ _)
  · intro k hk
    have hbase : (C.getD k EmptyFO).alarm_level ≤ (nmeaHP E C).alarm :=
      hpFold_alarm_ge E C _ hpInit k hk
    unfold nmeaHPFinal
    split
    · rename_i hcond
      have hstuck : nmeaHP E C = hpInit := by
        have h0 : (nmeaHP E C).addr = 0 := hcond.2
        unfold nmeaHP at h0 ⊢
        exact hpFold_addr_stuck E C _ hpInit
          (fun j hj => candidateIdx_addr_ne E C j hj) h0
      rw [hstuck] at hbase
      have hzero : (C.getD k EmptyFO).alarm_level = 0 := by
        simpa [hpInit, ALARM_LEVEL_NONE] using hbase
      split
      · show (C.getD k EmptyFO).alarm_level ≤ (C.getD ((nmeaOrder E C).headD 0) EmptyFO).alarm_level
        omega
      · rw [hstuck]
        exact hbase
    · exact hbase

end SoftRF
